import Mathlib

/-!
Shallow embedding of the CDCL core in `src/minisat/core/Solver.cc` (a MiniSat
2.x derivative embedded in a propagator framework).  Machine integers of the
source are modelled as `Nat`/`Int`, C++ doubles as `ℚ`, the clause arena as a
`List` of clause records indexed by `Nat` clause references, and the seeded
pseudo-random generators (`drand`/`irand`/`rand`, defined outside this
repository) as an oracle stream of naturals carried in the solver state.
Host callbacks of the enclosing propagator framework (PCSolver) are
fire-and-forget notifications and are modelled as no-ops; `Solver::propagate`
relays to the host which calls back `Solver::notifypropagate`, so it is
modelled as core propagation itself.
-/

set_option maxHeartbeats 1000000

namespace Minisat

/-- Three-valued truth, mirroring lbool of the source. -/
inductive LBool where
  | ltrue
  | lfalse
  | lundef
deriving DecidableEq, Repr

open LBool

/-- Literal encoding of SolverTypes: literal code is 2*var + sign. -/
def mkLit (v : Nat) (sgn : Bool) : Nat := 2 * v + (if sgn then 1 else 0)

/-- Variable of a literal. -/
def litVar (l : Nat) : Nat := l / 2

/-- Sign of a literal (true means negated). -/
def litSign (l : Nat) : Bool := l % 2 = 1

/-- Complement of a literal (xor of the low bit). -/
def negLit (l : Nat) : Nat := l ^^^ 1

/-- Clause record: literal list plus header bits (learnt flag, deletion mark,
activity used for learnt clauses). -/
structure Clause where
  lits : List Nat
  learnt : Bool
  mark : Nat
  act : ℚ
deriving DecidableEq, Repr

/-- Watcher entry: clause reference plus blocker literal. -/
structure Watcher where
  cref : Nat
  blocker : Nat
deriving DecidableEq, Repr

/-- Per-variable data: reason clause reference (none for decisions) and
decision level at assignment time. -/
structure VarData where
  reason : Option Nat
  level : Nat
deriving DecidableEq, Repr

/-- Solver state: the fields of Solver.cc/Solver.h that the verified claims
touch.  Statistics and tunables kept as plain fields; the rng field is the
oracle stream standing for the seeded PRNGs. -/
structure SolverState where
  assigns : List LBool
  vardata : List VarData
  activity : List ℚ
  polarity : List Bool
  user_pol : List LBool
  decision : List Bool
  seen : List Bool
  watches : List (List Watcher)
  watchesDirty : List Bool
  ca : List Clause
  caSizeWords : Nat
  wasted : Nat
  clauses : List Nat
  learnts : List Nat
  trail : List Nat
  trail_lim : List Nat
  qhead : Nat
  ok : Bool
  simpDB_assigns : Int
  simpDB_props : Int
  clauses_literals : Int
  learnts_literals : Int
  propagations : Nat
  conflicts : Nat
  solves : Nat
  cla_inc : ℚ
  dec_vars : Nat
  order_heap : List Nat
  rng : List Nat
  remove_satisfied : Bool
  phase_saving : Nat
  garbage_frac : ℚ
  luby_restart : Bool
  restart_first : Nat
  restart_inc : ℚ
  learntsize_factor : ℚ
  learntsize_inc : ℚ
  learntsize_adjust_start_confl : ℚ
  learntsize_adjust_inc : ℚ
  max_learnts : ℚ
  learntsize_adjust_confl : ℚ
  learntsize_adjust_cnt : Int
  conflict_budget : Int
  propagation_budget : Int
  nbFormulas : Nat
  terminateFlag : Bool
  fullassignment : Bool
  model : List LBool
  conflictVec : List Nat
deriving DecidableEq, Repr

/-- Current decision level: size of trail_lim. -/
def decisionLevel (s : SolverState) : Nat := s.trail_lim.length

/-- Number of variables. -/
def nVars (s : SolverState) : Nat := s.assigns.length

/-- Number of assigned variables: size of the trail. -/
def nAssigns (s : SolverState) : Nat := s.trail.length

/-- Truth value of a variable. -/
def valueVar (s : SolverState) (v : Nat) : LBool := s.assigns.getD v lundef

/-- Truth value of a literal: the variable value xored with the sign. -/
def valueLit (s : SolverState) (l : Nat) : LBool :=
  match s.assigns.getD (litVar l) lundef with
  | lundef => lundef
  | ltrue => if litSign l then lfalse else ltrue
  | lfalse => if litSign l then ltrue else lfalse

/-- Convenience predicate of the source: isFalse(l). -/
def isFalse (s : SolverState) (l : Nat) : Bool := valueLit s l = lfalse

/-- Convenience predicate of the source: isTrue(l). -/
def isTrue (s : SolverState) (l : Nat) : Bool := valueLit s l = ltrue

/-- Decision flag of a variable (isDecisionVar). -/
def isDecisionVar (s : SolverState) (v : Nat) : Bool := s.decision.getD v false

/-- Reason clause reference of a variable. -/
def reasonOf (s : SolverState) (v : Nat) : Option Nat :=
  (s.vardata.getD v ⟨none, 0⟩).reason

/-- Decision level of a variable. -/
def levelOf (s : SolverState) (v : Nat) : Nat :=
  (s.vardata.getD v ⟨none, 0⟩).level

/-- Clause stored at a reference in the arena. -/
def clauseAt (s : SolverState) (cr : Nat) : Clause :=
  s.ca.getD cr ⟨[], false, 0, 0⟩

/-- Draws the next value of the PRNG oracle stream. -/
def rngNext (s : SolverState) : Nat × SolverState :=
  (s.rng.headD 0, { s with rng := s.rng.tail })

/-- Modelled from the spec: irand(seed, size) of utils draws a pseudo-random
integer below size from the seeded generator; here the draw comes from the
oracle stream. -/
def irand (s : SolverState) (size : Nat) : Nat × SolverState :=
  let (n, s) := rngNext s
  (n % size, s)

/-- Modelled from the spec: the variable-order heap of mtl/Heap.h is a binary
max-heap keyed by activity; only membership matters to the claims below, so it
is modelled as a duplicate-free list.  insertVarOrder inserts a variable that
is not already present and is a decision variable. -/
def insertVarOrder (s : SolverState) (v : Nat) : SolverState :=
  if v ∉ s.order_heap ∧ isDecisionVar s v then
    { s with order_heap := s.order_heap ++ [v] }
  else s

/-- Embedding of Solver::setDecidable (logging and the host notification
dropped): adjust dec_vars, write the decision flag, reinsert in the heap. -/
def setDecidable (s : SolverState) (v : Nat) (decide : Bool) : SolverState :=
  let newdecidable := decide ∧ ¬ isDecisionVar s v
  let s :=
    if newdecidable then { s with dec_vars := s.dec_vars + 1 }
    else if ¬ decide ∧ isDecisionVar s v then { s with dec_vars := s.dec_vars - 1 }
    else s
  let s := { s with decision := s.decision.set v decide }
  insertVarOrder s v

/-- Embedding of Solver::newVar: push fresh entries on every per-variable
array, extend the watcher index by the two literals of the variable, then set
decidability.  Initial activity is zero (rnd_init_act is false by default). -/
def newVar (s : SolverState) (upol : LBool) (dvar : Bool) : Nat × SolverState :=
  let v := nVars s
  let s := { s with
    watches := s.watches ++ [[], []],
    watchesDirty := s.watchesDirty ++ [false, false],
    assigns := s.assigns ++ [lundef],
    vardata := s.vardata ++ [⟨none, 0⟩],
    activity := s.activity ++ [0],
    seen := s.seen ++ [false],
    polarity := s.polarity ++ [true],
    user_pol := s.user_pol ++ [upol],
    decision := s.decision ++ [false] }
  (v, setDecidable s v dvar)

/-- Embedding of Solver::createNewDecisionLevel. -/
def createNewDecisionLevel (s : SolverState) : SolverState :=
  { s with trail_lim := s.trail_lim ++ [s.trail.length] }

/-- Embedding of Solver::checkDecisionVars: run on the two watched literals of
a clause; if one watch is false force the other watch decidable, else if
neither watch is decidable pick one of the two by the PRNG and make it
decidable. -/
def checkDecisionVars (s : SolverState) (c : Clause) : SolverState :=
  let l0 := c.lits.getD 0 0
  let l1 := c.lits.getD 1 0
  if isFalse s l0 then setDecidable s (litVar l1) true
  else if isFalse s l1 then setDecidable s (litVar l0) true
  else if ¬ isDecisionVar s (litVar l0) ∧ ¬ isDecisionVar s (litVar l1) then
    let (choice, s) := irand s 2
    setDecidable s (litVar (if choice = 0 then l0 else l1)) true
  else s

/-- Appends a watcher to the list of a literal. -/
def pushWatcher (s : SolverState) (l : Nat) (w : Watcher) : SolverState :=
  { s with watches := s.watches.set l (s.watches.getD l [] ++ [w]) }

/-- Embedding of Solver::addToClauses (host notification dropped). -/
def addToClauses (s : SolverState) (cr : Nat) (learnt : Bool) : SolverState :=
  if learnt then { s with learnts := s.learnts ++ [cr] }
  else { s with clauses := s.clauses ++ [cr] }

/-- Words occupied by a clause in the arena, following the spec description of
the allocator (header word, literals, extra activity word for learnt
clauses). -/
def clauseWords (c : Clause) : Nat :=
  1 + c.lits.length + (if c.learnt then 1 else 0)

/-- Modelled from the spec: ClauseAllocator::alloc of the arena (not under
src) appends the clause and returns its reference. -/
def allocClause (s : SolverState) (ps : List Nat) (learnt : Bool) : Nat × SolverState :=
  let c : Clause := ⟨ps, learnt, 0, 0⟩
  (s.ca.length, { s with ca := s.ca ++ [c], caSizeWords := s.caSizeWords + clauseWords c })

/-- Modelled from the spec: ClauseAllocator::free only accounts the freed
words in the wasted counter. -/
def freeClause (s : SolverState) (cr : Nat) : SolverState :=
  { s with wasted := s.wasted + clauseWords (clauseAt s cr) }

/-- Overwrites the clause stored at a reference. -/
def setClause (s : SolverState) (cr : Nat) (c : Clause) : SolverState :=
  { s with ca := s.ca.set cr c }

/-- Embedding of Solver::attachClause: push the two watchers, account the
literal counters, and run the decision-var guard unless the clause is a
learnt clause with both watches false. -/
def attachClause (s : SolverState) (cr : Nat) : SolverState :=
  let c := clauseAt s cr
  let s := pushWatcher s (negLit (c.lits.getD 0 0)) ⟨cr, c.lits.getD 1 0⟩
  let s := pushWatcher s (negLit (c.lits.getD 1 0)) ⟨cr, c.lits.getD 0 0⟩
  let s :=
    if c.learnt then { s with learnts_literals := s.learnts_literals + c.lits.length }
    else { s with clauses_literals := s.clauses_literals + c.lits.length }
  if ¬ c.learnt ∨ (¬ isFalse s (c.lits.getD 1 0) ∨ ¬ isFalse s (c.lits.getD 0 0)) then
    checkDecisionVars s c
  else s

/-- Marks the watcher list of a literal dirty (OccLists::smudge). -/
def smudge (s : SolverState) (l : Nat) : SolverState :=
  { s with watchesDirty := s.watchesDirty.set l true }

/-- Embedding of Solver::detachClause: strict mode removes the two watcher
entries, lazy mode only smudges the two lists; the literal counters are
decremented either way. -/
def detachClause (s : SolverState) (cr : Nat) (strict : Bool) : SolverState :=
  let c := clauseAt s cr
  let l0 := c.lits.getD 0 0
  let l1 := c.lits.getD 1 0
  let s :=
    if strict then
      let ws0 := (s.watches.getD (negLit l0) []).erase ⟨cr, l1⟩
      let s := { s with watches := s.watches.set (negLit l0) ws0 }
      let ws1 := (s.watches.getD (negLit l1) []).erase ⟨cr, l0⟩
      { s with watches := s.watches.set (negLit l1) ws1 }
    else
      smudge (smudge s (negLit l0)) (negLit l1)
  if c.learnt then { s with learnts_literals := s.learnts_literals - c.lits.length }
  else { s with clauses_literals := s.clauses_literals - c.lits.length }

/-- Modelled from the spec: Solver::locked of the header (not under src) per
the glossary, a clause is locked when it currently serves as the reason of an
assigned variable; by the reason invariant that variable is the one of its
position-0 literal, so the check is that the position-0 literal is true and
its variable's reason is this very reference. -/
def lockedC (s : SolverState) (cr : Nat) : Bool :=
  let c := clauseAt s cr
  valueLit s (c.lits.getD 0 0) = ltrue ∧ reasonOf s (litVar (c.lits.getD 0 0)) = some cr

/-- Embedding of Solver::removeClause: detach lazily, clear the reason of the
position-0 variable when the clause is locked, set the deletion mark, free the
arena words. -/
def removeClause (s : SolverState) (cr : Nat) : SolverState :=
  let c := clauseAt s cr
  let s := detachClause s cr false
  let s :=
    if lockedC s cr then
      let v := litVar (c.lits.getD 0 0)
      let vd := s.vardata.getD v ⟨none, 0⟩
      { s with vardata := s.vardata.set v ⟨none, vd.level⟩ }
    else s
  let s := setClause s cr { (clauseAt s cr) with mark := 1 }
  freeClause s cr

/-- Embedding of Solver::satisfied: some literal of the clause is true under
the current assignment. -/
def satisfiedC (s : SolverState) (c : Clause) : Bool :=
  c.lits.any (fun l => valueLit s l = ltrue)

/-- Inner loop of Solver::cancelUntil, walking the trail downwards from the
top to the limit: clear the assignment, save the phase, reinsert in the
variable order heap. -/
def cancelUntilLoop : SolverState → Nat → Nat → SolverState
  | s, _, 0 => s
  | s, limit, k + 1 =>
    let c := limit + k
    let p := s.trail.getD c 0
    let x := litVar p
    let s := { s with assigns := s.assigns.set x lundef }
    let s :=
      if s.phase_saving > 1 ∨
          (s.phase_saving = 1 ∧ c > s.trail_lim.getD (s.trail_lim.length - 1) 0) then
        { s with polarity := s.polarity.set x (litSign p) }
      else s
    let s := insertVarOrder s x
    cancelUntilLoop s limit k

/-- Embedding of Solver::cancelUntil (host notification dropped): when above
the target level, unassign every trail literal from the top down to the
opening of level+1, reset qhead and truncate trail and trail_lim. -/
def cancelUntil (s : SolverState) (level : Nat) : SolverState :=
  if decisionLevel s > level then
    let s := { s with fullassignment := false }
    let limit := s.trail_lim.getD level 0
    let s := cancelUntilLoop s limit (s.trail.length - limit)
    { s with qhead := limit,
             trail := s.trail.take limit,
             trail_lim := s.trail_lim.take level }
  else s

/-- Embedding of Solver::uncheckedEnqueue (host notification dropped): record
the assignment making the literal true, store reason and level, push on the
trail, and promote the variable to decidable when it is not. -/
def uncheckedEnqueue (s : SolverState) (p : Nat) (reasonRef : Option Nat) : SolverState :=
  let v := litVar p
  let s := { s with
    assigns := s.assigns.set v (if litSign p then lfalse else ltrue),
    vardata := s.vardata.set v ⟨reasonRef, decisionLevel s⟩,
    trail := s.trail ++ [p] }
  if ¬ isDecisionVar s v then setDecidable s v true else s

/-- Embedding of OccLists::cleanAll of the watcher index: every dirty list is
swept, dropping watchers whose clause carries the deletion mark. -/
def cleanAllWatches (s : SolverState) : SolverState :=
  { s with
    watches := (List.range s.watches.length).map (fun i =>
      if s.watchesDirty.getD i false then
        (s.watches.getD i []).filter (fun w => (clauseAt s w.cref).mark ≠ 1)
      else s.watches.getD i []),
    watchesDirty := s.watchesDirty.map (fun _ => false) }

/-- Scan of positions 2 and up of a clause for a literal that is not false,
returning its index (the k loop of notifypropagate). -/
def findNonFalseIdx (s : SolverState) : List Nat → Nat → Option Nat
  | [], _ => none
  | l :: rest, k => if ¬ isFalse s l then some k else findNonFalseIdx s rest (k + 1)

/-- Watch alignment of notifypropagate: make sure the false literal sits at
position 1, swapping positions 0 and 1 when needed. -/
def swapFalseToSnd (c : Clause) (false_lit : Nat) : Clause :=
  if c.lits.getD 0 0 = false_lit then
    { c with lits := (c.lits.set 0 (c.lits.getD 1 0)).set 1 false_lit }
  else c

/-- Clause after the watch alignment of notifypropagate for dequeued literal
p: the false literal is made to sit at position 1. -/
def alignedClause (s : SolverState) (p cr : Nat) : Clause :=
  swapFalseToSnd (clauseAt s cr) (negLit p)

/-- State after the watch alignment of notifypropagate: the swapped clause is
stored back when a swap happened. -/
def alignedState (s : SolverState) (p cr : Nat) : SolverState :=
  if (clauseAt s cr).lits.getD 0 0 = negLit p then
    setClause s cr (alignedClause s p cr)
  else s

/-- Inner watcher-list walk of Solver::notifypropagate for one dequeued
literal p.  Arguments: state, p, pending watchers, watchers already kept.
Returns the final state, the new watcher list of p, and a conflict reference
when one was found (in which case the remaining watchers are appended
unchanged and qhead is advanced to the trail end, as in the source). -/
def propagateWatchers : SolverState → Nat → List Watcher → List Watcher →
    SolverState × List Watcher × Option Nat
  | s, _, [], kept => (s, kept, none)
  | s, p, w :: rest, kept =>
    if valueLit s w.blocker = ltrue then
      let s := setDecidable s (litVar w.blocker) true
      propagateWatchers s p rest (kept ++ [w])
    else
      let cr := w.cref
      let false_lit := negLit p
      let c := alignedClause s p cr
      let s := alignedState s p cr
      let first := c.lits.getD 0 0
      if first ≠ w.blocker ∧ valueLit s first = ltrue then
        let s := checkDecisionVars s c
        propagateWatchers s p rest (kept ++ [⟨cr, first⟩])
      else
        match findNonFalseIdx s (c.lits.drop 2) 2 with
        | some k =>
          let ck := c.lits.getD k 0
          let c2 := { c with lits := (c.lits.set 1 ck).set k false_lit }
          let s := setClause s cr c2
          let s := pushWatcher s (negLit (c2.lits.getD 1 0)) ⟨cr, first⟩
          let s := checkDecisionVars s c2
          propagateWatchers s p rest kept
        | none =>
          if valueLit s first = lfalse then
            ({ s with qhead := s.trail.length }, kept ++ [⟨cr, first⟩] ++ rest, some cr)
          else
            let s := uncheckedEnqueue s first (some cr)
            let s := checkDecisionVars s c
            propagateWatchers s p rest (kept ++ [⟨cr, first⟩])

/-- Outer queue loop of Solver::notifypropagate with fuel: dequeue the next
trail literal, walk its watcher list, install the compacted list, and force
the queue empty on conflict.  Returns none when the fuel runs out. -/
def propagateLoop : Nat → SolverState → Nat → Option Nat →
    Option (SolverState × Option Nat × Nat)
  | 0, _, _, _ => none
  | f + 1, s, num_props, confl =>
    if s.qhead < s.trail.length then
      let p := s.trail.getD s.qhead 0
      let s := { s with qhead := s.qhead + 1 }
      let num_props := num_props + 1
      let ws := s.watches.getD p []
      let r := propagateWatchers s p ws []
      let s := r.1
      let kept := r.2.1
      let c := r.2.2
      let s := { s with watches := s.watches.set p kept }
      let confl := match c with | some cr => some cr | none => confl
      let s := if confl.isSome then { s with qhead := s.trail.length } else s
      propagateLoop f s num_props confl
    else some (s, confl, num_props)

/-- Embedding of Solver::notifypropagate: clean the watcher lists, run the
queue loop, account the propagation counters. -/
def notifypropagate (f : Nat) (s : SolverState) : Option (SolverState × Option Nat) :=
  let s := cleanAllWatches s
  match propagateLoop f s 0 none with
  | none => none
  | some (s, confl, np) =>
    some ({ s with propagations := s.propagations + np,
                   simpDB_props := s.simpDB_props - np }, confl)

/-- Embedding of Solver::propagate: the source relays to the host propagator
framework, which (per the spec host contract) drives Solver::notifypropagate
and may add its own propagations; the host is modelled as a pure relay, so
propagate is core propagation. -/
def propagate (f : Nat) (s : SolverState) : Option (SolverState × Option Nat) :=
  notifypropagate f s

/-- Modelled from the spec: sort(ps) of mtl/Sort.h (not under src) orders the
literal list ascending by literal code; insertion sort realises it. -/
def sortLits (ps : List Nat) : List Nat := List.insertionSort (· ≤ ·) ps

/-- Embedding of permuteRandomly: each literal is paired with a draw of the
PRNG (the global rand(), modelled by the oracle stream) and the pairs are
sorted by the drawn keys, yielding a seeded pseudo-random permutation. -/
def permuteRandomly (s : SolverState) (ps : List Nat) : List Nat × SolverState :=
  let keys := (s.rng ++ List.replicate ps.length 0).take ps.length
  let s := { s with rng := s.rng.drop ps.length }
  let pairs := keys.zip ps
  let sorted := List.insertionSort (fun a b : Nat × Nat => a.1 ≤ b.1) pairs
  (sorted.map Prod.snd, s)

/-- Root-level simplification loop of Solver::addClause_ over the sorted
list: drop the clause (none) on a root-true literal or a complementary
adjacent pair, remove root-false and duplicate literals. -/
def rootSimplify (s : SolverState) : List Nat → Option Nat → Option (List Nat)
  | [], _ => some []
  | l :: rest, prev =>
    if valueLit s l = ltrue ∨ prev = some (negLit l) then none
    else if valueLit s l ≠ lfalse ∧ prev ≠ some l then
      (rootSimplify s rest (some l)).map (fun qs => l :: qs)
    else rootSimplify s rest prev

/-- Swap of the source: exchange positions i and 1 of a list. -/
def listSwap1 (ps : List Nat) (i : Nat) : List Nat :=
  (ps.set i (ps.getD 1 0)).set 1 (ps.getD i 0)

/-- Loop of Solver::addClause_ at positive decision level: swap the first
literal that is not false into position 1. -/
def swapNonFalseTo1 (s : SolverState) (ps : List Nat) : List Nat :=
  match ps.findIdx? (fun l => !(isFalse s l)) with
  | none => ps
  | some i => listSwap1 ps i

/-- Embedding of Solver::addClause_ with fuel for the self-call after the
backtrack to level 0 and for propagation: refuse when ok is down; backtrack
when fewer than two literals are non-false at positive level; sort; simplify
at root level; permute; then dispatch on the resulting size (empty clause
latches ok false, unit clause is enqueued and propagated with ok recording
the absence of conflict, larger clauses are allocated and attached). -/
def addClause_ : Nat → SolverState → List Nat → Option (Bool × SolverState)
  | 0, _, _ => none
  | f + 1, s, ps =>
    if ¬ s.ok then some (false, s)
    else if 0 < decisionLevel s ∧ ps.countP (fun l => !(isFalse s l)) < 2 then
      addClause_ f (cancelUntil s 0) ps
    else
      let ps := sortLits ps
      let simplified : Option (List Nat) :=
        if decisionLevel s = 0 then rootSimplify s ps none else some ps
      match simplified with
      | none => some (true, s)
      | some qs =>
        let pr := permuteRandomly s qs
        let qs := pr.1
        let s := pr.2
        if qs.length = 0 then some (false, { s with ok := false })
        else if qs.length = 1 then
          let s := uncheckedEnqueue s (qs.getD 0 0) none
          match propagate f s with
          | none => none
          | some (s, confl) => some (confl.isNone, { s with ok := confl.isNone })
        else
          let qs := if 0 < decisionLevel s then swapNonFalseTo1 s qs else qs
          let ac := allocClause s qs false
          let cr := ac.1
          let s := ac.2
          let s := addToClauses s cr false
          let s := attachClause s cr
          some (true, s)

/-- Relocation bookkeeping of garbage collection: the old arena, the
forwarding map (reloced marks with forwarding indices), and the fresh
arena. -/
structure RelocState where
  old : List Clause
  fwd : List (Option Nat)
  toArena : List Clause
deriving Repr

/-- Embedding of ClauseAllocator::reloc: an already relocated clause yields
its forwarding index, otherwise the clause is copied to the fresh arena and
the forwarding index recorded. -/
def relocRef (rs : RelocState) (cr : Nat) : RelocState × Nat :=
  match rs.fwd.getD cr none with
  | some ncr => (rs, ncr)
  | none =>
    let c := rs.old.getD cr ⟨[], false, 0, 0⟩
    let ncr := rs.toArena.length
    ({ rs with toArena := rs.toArena ++ [c], fwd := rs.fwd.set cr (some ncr) }, ncr)

/-- Watcher-list pass of Solver::relocAll: relocate every watcher's clause
reference in list order. -/
def relocWatcherList (rs : RelocState) : List Watcher → RelocState × List Watcher
  | [] => (rs, [])
  | w :: ws =>
    let r := relocRef rs w.cref
    let r2 := relocWatcherList r.1 ws
    (r2.1, ⟨r.2, w.blocker⟩ :: r2.2)

/-- Watcher-index pass of Solver::relocAll over the per-literal lists in
literal-code order. -/
def relocWatches (rs : RelocState) : List (List Watcher) → RelocState × List (List Watcher)
  | [] => (rs, [])
  | ws :: rest =>
    let r := relocWatcherList rs ws
    let r2 := relocWatches r.1 rest
    (r2.1, r.2 :: r2.2)

/-- Reason pass of Solver::relocAll, walking the trail: a reason is relocated
when it was already relocated or is locked. -/
def relocReasons (rs : RelocState) (s : SolverState) : List Nat → RelocState × SolverState
  | [] => (rs, s)
  | p :: rest =>
    let v := litVar p
    match reasonOf s v with
    | none => relocReasons rs s rest
    | some r =>
      if (rs.fwd.getD r none).isSome ∨ lockedC s r then
        let rr := relocRef rs r
        let vd := s.vardata.getD v ⟨none, 0⟩
        relocReasons rr.1 { s with vardata := s.vardata.set v ⟨some rr.2, vd.level⟩ } rest
      else relocReasons rs s rest

/-- Clause-list pass of Solver::relocAll (learnt and original lists). -/
def relocRefList (rs : RelocState) : List Nat → RelocState × List Nat
  | [] => (rs, [])
  | cr :: rest =>
    let r := relocRef rs cr
    let r2 := relocRefList r.1 rest
    (r2.1, r.2 :: r2.2)

/-- Embedding of Solver::garbageCollect and Solver::relocAll: clean the
watcher lists, relocate watcher references, locked or already relocated
reasons, the learnt list and the original list, then install the fresh
arena. -/
def garbageCollect (s : SolverState) : SolverState :=
  let s := cleanAllWatches s
  let rs0 : RelocState := ⟨s.ca, List.replicate s.ca.length none, []⟩
  let rw := relocWatches rs0 s.watches
  let s := { s with watches := rw.2 }
  let rr := relocReasons rw.1 s s.trail
  let rs2 := rr.1
  let s := rr.2
  let rl := relocRefList rs2 s.learnts
  let s := { s with learnts := rl.2 }
  let rc := relocRefList rl.1 s.clauses
  let s := { s with clauses := rc.2 }
  { s with ca := rc.1.toArena,
           caSizeWords := (rc.1.toArena.map clauseWords).sum,
           wasted := 0 }

/-- Modelled from the spec: Solver::checkGarbage of the header triggers a
collection when the wasted words exceed the configured fraction of the arena
size. -/
def checkGarbage (s : SolverState) : SolverState :=
  if (s.wasted : ℚ) > (s.caSizeWords : ℚ) * s.garbage_frac then garbageCollect s else s

/-- Embedding of Solver::removeSatisfied over one clause list: remove every
clause satisfied under the current assignment, keep the rest in order. -/
def removeSatisfiedList : SolverState → List Nat → SolverState × List Nat
  | s, [] => (s, [])
  | s, cr :: rest =>
    if satisfiedC s (clauseAt s cr) then
      removeSatisfiedList (removeClause s cr) rest
    else
      let r := removeSatisfiedList s rest
      (r.1, cr :: r.2)

/-- Embedding of Solver::rebuildOrderHeap: rebuild from the decidable
variables that are currently unassigned. -/
def rebuildOrderHeap (s : SolverState) : SolverState :=
  { s with order_heap :=
      (List.range (nVars s)).filter (fun v => isDecisionVar s v ∧ valueVar s v = lundef) }

/-- Embedding of Solver::simplify (precondition of the source: decision level
0): propagate, failing permanently on conflict; skip when neither watermark
moved; else sweep satisfied clauses, possibly collect garbage, rebuild the
order heap and refresh the watermarks. -/
def simplify (f : Nat) (s : SolverState) : Option (Bool × SolverState) :=
  if ¬ s.ok then some (false, { s with ok := false })
  else
    match propagate f s with
    | none => none
    | some (s, confl) =>
      if confl.isSome then some (false, { s with ok := false })
      else if (nAssigns s : Int) = s.simpDB_assigns ∨ s.simpDB_props > 0 then some (true, s)
      else
        let r := removeSatisfiedList s s.learnts
        let s := { r.1 with learnts := r.2 }
        let s :=
          if s.remove_satisfied then
            let r2 := removeSatisfiedList s s.clauses
            { r2.1 with clauses := r2.2 }
          else s
        let s := checkGarbage s
        let s := rebuildOrderHeap s
        some (true, { s with simpDB_assigns := (nAssigns s : Int),
                             simpDB_props := s.clauses_literals + s.learnts_literals })

/-- Embedding of the reduceDB_lt comparator: size-2 clauses rank highest
(never before anything), larger clauses order by ascending activity. -/
def reduceDB_lt (ca : List Clause) (x y : Nat) : Bool :=
  let cx := ca.getD x ⟨[], false, 0, 0⟩
  let cy := ca.getD y ⟨[], false, 0, 0⟩
  decide (2 < cx.lits.length ∧ (cy.lits.length = 2 ∨ cx.act < cy.act))

/-- Deletion test of the reduceDB loop at post-sort index i out of n learnt
clauses: larger than binary, not locked, and in the first half or below the
activity threshold. -/
def reduceDBdelCond (s : SolverState) (extra_lim : ℚ) (n i cr : Nat) : Bool :=
  let c := clauseAt s cr
  decide (2 < c.lits.length ∧ ¬ lockedC s cr ∧ (i < n / 2 ∨ c.act < extra_lim))

/-- Loop of Solver::reduceDB over the sorted learnt list paired with its
post-sort indices: delete clauses meeting the deletion test, keep the
rest. -/
def reduceDBLoop (extra_lim : ℚ) (n : Nat) : SolverState → List (Nat × Nat) →
    SolverState × List Nat
  | s, [] => (s, [])
  | s, (i, cr) :: rest =>
    if reduceDBdelCond s extra_lim n i cr then
      reduceDBLoop extra_lim n (removeClause s cr) rest
    else
      let r := reduceDBLoop extra_lim n s rest
      (r.1, cr :: r.2)

/-- Embedding of Solver::reduceDB: compute the activity threshold, sort the
learnt list by the comparator (sort of mtl modelled as insertion sort), run
the deletion loop, install the kept list, and possibly collect garbage. -/
def reduceDB (s : SolverState) : SolverState :=
  let extra_lim : ℚ := s.cla_inc / (s.learnts.length : ℚ)
  let sorted := List.insertionSort (fun x y => reduceDB_lt s.ca x y = true) s.learnts
  let n := s.learnts.length
  let r := reduceDBLoop extra_lim n s sorted.enum
  let s := { r.1 with learnts := r.2 }
  checkGarbage s

/-- Structured DIMACS output: the two header numbers and the emitted lines,
each line being the signed 1-based integers of one emitted clause without the
terminating zero. -/
structure Dimacs where
  headerVars : Nat
  headerClauses : Nat
  lines : List (List Int)
deriving DecidableEq, Repr

/-- Embedding of mapVar of Solver.cc: an unseen variable receives the next
free compact index (returned map, counter, assigned index). -/
def mapVar (x : Nat) (mp : List (Option Nat)) (mx : Nat) :
    List (Option Nat) × Nat × Nat :=
  match mp.getD x none with
  | some m => (mp, mx, m)
  | none =>
    let mp := (mp ++ List.replicate (x + 1 - mp.length) none).set x (some mx)
    (mp, mx + 1, mx)

/-- Literal pass of the clause-level toDimacs: emit every literal that is not
false as a signed 1-based compact index. -/
def emitLits (s : SolverState) : List Nat → List (Option Nat) → Nat →
    List Int × List (Option Nat) × Nat
  | [], mp, mx => ([], mp, mx)
  | l :: rest, mp, mx =>
    if valueLit s l ≠ lfalse then
      let r := mapVar (litVar l) mp mx
      let m := r.2.2
      let rr := emitLits s rest r.1 r.2.1
      ((if litSign l then -((m : Int) + 1) else (m : Int) + 1) :: rr.1, rr.2)
    else emitLits s rest mp mx

/-- Mapping prepass of Solver::toDimacs over one clause's literals. -/
def prepassLits (s : SolverState) : List Nat → List (Option Nat) → Nat →
    List (Option Nat) × Nat
  | [], mp, mx => (mp, mx)
  | l :: rest, mp, mx =>
    if valueLit s l ≠ lfalse then
      let r := mapVar (litVar l) mp mx
      prepassLits s rest r.1 r.2.1
    else prepassLits s rest mp mx

/-- Mapping prepass of Solver::toDimacs over the original clause list: map
the non-false literals of every clause that is not satisfied. -/
def prepassClauses (s : SolverState) : List Nat → List (Option Nat) → Nat →
    List (Option Nat) × Nat
  | [], mp, mx => (mp, mx)
  | cr :: rest, mp, mx =>
    if ¬ satisfiedC s (clauseAt s cr) then
      let r := prepassLits s (clauseAt s cr).lits mp mx
      prepassClauses s rest r.1 r.2
    else prepassClauses s rest mp mx

/-- Assumption pass of Solver::toDimacs: each assumption becomes a unit
line (note the source maps assumption variables only here, after the header
was already emitted). -/
def emitAssumps (s : SolverState) : List Nat → List (Option Nat) → Nat →
    List (List Int) × List (Option Nat) × Nat
  | [], mp, mx => ([], mp, mx)
  | a :: rest, mp, mx =>
    let r := mapVar (litVar a) mp mx
    let m := r.2.2
    let rr := emitAssumps s rest r.1 r.2.1
    ([if litSign a then -((m : Int) + 1) else (m : Int) + 1] :: rr.1, rr.2)

/-- Clause pass of Solver::toDimacs: skip satisfied clauses, emit the
others. -/
def emitClauses (s : SolverState) : List Nat → List (Option Nat) → Nat →
    List (List Int) × List (Option Nat) × Nat
  | [], mp, mx => ([], mp, mx)
  | cr :: rest, mp, mx =>
    let c := clauseAt s cr
    if satisfiedC s c then emitClauses s rest mp mx
    else
      let r := emitLits s c.lits mp mx
      let rr := emitClauses s rest r.2.1 r.2.2
      (r.1 :: rr.1, rr.2)

/-- Embedding of Solver::toDimacs(FILE, assumps): the contradictory state
emits the fixed two-clause unsatisfiable formula; otherwise count the
unsatisfied clauses, run the mapping prepass, add one clause per assumption,
emit the header with the counter reached by the prepass, then the assumption
unit lines and the clause lines. -/
def toDimacs (s : SolverState) (assumps : List Nat) : Dimacs :=
  if ¬ s.ok then ⟨1, 2, [[1], [-1]]⟩
  else
    let cnt := (s.clauses.filter (fun cr => ¬ satisfiedC s (clauseAt s cr))).length
    let pre := prepassClauses s s.clauses [] 0
    let mp := pre.1
    let mx := pre.2
    let cnt := cnt + assumps.length
    let ea := emitAssumps s assumps mp mx
    let ec := emitClauses s s.clauses ea.2.1 ea.2.2
    ⟨mx, cnt, ea.1 ++ ec.1⟩

/-- Growth loop of the static luby function (size and seq climb until the
subsequence containing x is found). -/
def lubyGrow : Nat → Nat → Nat → Nat → Nat × Nat
  | 0, size, seq, _ => (size, seq)
  | f + 1, size, seq, x =>
    if size < x + 1 then lubyGrow f (2 * size + 1) (seq + 1) x else (size, seq)

/-- Descent loop of the static luby function. -/
def lubyShrink : Nat → Nat → Nat → Nat → Nat
  | 0, _, seq, _ => seq
  | f + 1, size, seq, x =>
    if size - 1 ≠ x then
      lubyShrink f ((size - 1) / 2) (seq - 1) (x % ((size - 1) / 2))
    else seq

/-- Embedding of the static luby(y, x) of Solver.cc. -/
def luby (y : ℚ) (x : Nat) : ℚ :=
  let g := lubyGrow (x + 2) 1 0 x
  y ^ lubyShrink (x + 2) g.1 g.2 x

/-- Modelled from the spec: Solver::withinBudget of the header; a negative
budget means unlimited. -/
def withinBudget (s : SolverState) : Bool :=
  decide ((s.conflict_budget < 0 ∨ (s.conflicts : Int) < s.conflict_budget) ∧
    (s.propagation_budget < 0 ∨ (s.propagations : Int) < s.propagation_budget))

/-- Restart loop of Solver::solve_ with the search routine abstracted as a
parameter (it is a separate member of the solver; only the loop structure is
relevant to the claims).  The Bool of the result tells whether the loop fell
through to the post-processing of solve_ (true) or returned from inside the
loop (false). -/
def solveLoop (search : SolverState → Int → Option (LBool × SolverState))
    (nosearch : Bool) : Nat → SolverState → Nat → LBool →
    Option (Bool × LBool × SolverState)
  | 0, _, _, _ => none
  | f + 1, s, curr_restarts, status =>
    if status ≠ lundef then some (true, status, s)
    else if s.terminateFlag then some (false, lundef, s)
    else
      let rest_base : ℚ :=
        if s.luby_restart then luby s.restart_inc curr_restarts
        else s.restart_inc ^ curr_restarts
      match search s ⌊rest_base * (s.restart_first : ℚ)⌋ with
      | none => none
      | some (st, s) =>
        if s.terminateFlag then some (false, lundef, s)
        else if nosearch then some (false, st, s)
        else if ¬ withinBudget s then some (true, st, s)
        else solveLoop search nosearch f s (curr_restarts + 1) st

/-- Embedding of Solver::solve_ over an abstracted search member: clear model
and conflict vector, refuse immediately when ok is down, initialise the
learnt-size governor from the host formula count, run the restart loop, then
extend and copy the model on a satisfiable status and latch ok false on an
unconditional unsatisfiable status. -/
def solveWith (search : SolverState → Int → Option (LBool × SolverState))
    (f : Nat) (s : SolverState) (nosearch : Bool) : Option (LBool × SolverState) :=
  let s := { s with model := [], conflictVec := [] }
  if ¬ s.ok then some (lfalse, s)
  else
    let s := { s with solves := s.solves + 1 }
    let s := { s with max_learnts := (s.nbFormulas : ℚ) * s.learntsize_factor,
                      learntsize_adjust_confl := s.learntsize_adjust_start_confl,
                      learntsize_adjust_cnt := ⌊s.learntsize_adjust_start_confl⌋ }
    match solveLoop search nosearch f s 0 lundef with
    | none => none
    | some (fell, status, s) =>
      if fell then
        let s :=
          if status = ltrue then
            { s with model := (List.range (nVars s)).map (fun v => valueVar s v) }
          else if status = lfalse ∧ s.conflictVec.length = 0 then { s with ok := false }
          else s
        some (status, s)
      else some (status, s)

/-- Fresh solver state with the default option values of the source and no
variables; the argument seeds the PRNG oracle stream. -/
def initState (rng : List Nat) : SolverState where
  assigns := []
  vardata := []
  activity := []
  polarity := []
  user_pol := []
  decision := []
  seen := []
  watches := []
  watchesDirty := []
  ca := []
  caSizeWords := 0
  wasted := 0
  clauses := []
  learnts := []
  trail := []
  trail_lim := []
  qhead := 0
  ok := true
  simpDB_assigns := -1
  simpDB_props := 0
  clauses_literals := 0
  learnts_literals := 0
  propagations := 0
  conflicts := 0
  solves := 0
  cla_inc := 1
  dec_vars := 0
  order_heap := []
  rng := rng
  remove_satisfied := true
  phase_saving := 2
  garbage_frac := 1 / 5
  luby_restart := true
  restart_first := 100
  restart_inc := 2
  learntsize_factor := 1 / 3
  learntsize_inc := 11 / 10
  learntsize_adjust_start_confl := 100
  learntsize_adjust_inc := 3 / 2
  max_learnts := 0
  learntsize_adjust_confl := 0
  learntsize_adjust_cnt := 0
  conflict_budget := -1
  propagation_budget := -1
  nbFormulas := 0
  terminateFlag := false
  fullassignment := false
  model := []
  conflictVec := []

/-! Basic lemmas about list access and the elementary state operations. -/

theorem getD_set_self {α : Type} (l : List α) (i : Nat) (a d : α) (h : i < l.length) :
    (l.set i a).getD i d = a := by
  simp [List.getD_eq_getElem?_getD, List.getElem?_set_self', h, List.getElem?_eq_getElem]

theorem getD_set_ne {α : Type} (l : List α) (i j : Nat) (a d : α) (h : i ≠ j) :
    (l.set i a).getD j d = l.getD j d := by
  simp [List.getD_eq_getElem?_getD, List.getElem?_set_ne h]

theorem insertVarOrder_decision (s : SolverState) (v : Nat) :
    (insertVarOrder s v).decision = s.decision := by
  unfold insertVarOrder; split <;> rfl

theorem insertVarOrder_assigns (s : SolverState) (v : Nat) :
    (insertVarOrder s v).assigns = s.assigns := by
  unfold insertVarOrder; split <;> rfl

theorem insertVarOrder_vardata (s : SolverState) (v : Nat) :
    (insertVarOrder s v).vardata = s.vardata := by
  unfold insertVarOrder; split <;> rfl

theorem insertVarOrder_trail (s : SolverState) (v : Nat) :
    (insertVarOrder s v).trail = s.trail := by
  unfold insertVarOrder; split <;> rfl

theorem insertVarOrder_trail_lim (s : SolverState) (v : Nat) :
    (insertVarOrder s v).trail_lim = s.trail_lim := by
  unfold insertVarOrder; split <;> rfl

theorem insertVarOrder_qhead (s : SolverState) (v : Nat) :
    (insertVarOrder s v).qhead = s.qhead := by
  unfold insertVarOrder; split <;> rfl

theorem insertVarOrder_watches (s : SolverState) (v : Nat) :
    (insertVarOrder s v).watches = s.watches := by
  unfold insertVarOrder; split <;> rfl

theorem insertVarOrder_ca (s : SolverState) (v : Nat) :
    (insertVarOrder s v).ca = s.ca := by
  unfold insertVarOrder; split <;> rfl

theorem insertVarOrder_clauses (s : SolverState) (v : Nat) :
    (insertVarOrder s v).clauses = s.clauses := by
  unfold insertVarOrder; split <;> rfl

theorem insertVarOrder_learnts (s : SolverState) (v : Nat) :
    (insertVarOrder s v).learnts = s.learnts := by
  unfold insertVarOrder; split <;> rfl

theorem insertVarOrder_ok (s : SolverState) (v : Nat) :
    (insertVarOrder s v).ok = s.ok := by
  unfold insertVarOrder; split <;> rfl

theorem insertVarOrder_rng (s : SolverState) (v : Nat) :
    (insertVarOrder s v).rng = s.rng := by
  unfold insertVarOrder; split <;> rfl

theorem insertVarOrder_mem_heap (s : SolverState) (v : Nat)
    (h : isDecisionVar s v = true) : v ∈ (insertVarOrder s v).order_heap := by
  unfold insertVarOrder
  split
  · simp
  · rename_i hc
    rw [Classical.not_and_iff_or_not_not] at hc
    rcases hc with hc | hc
    · simpa using hc
    · exact absurd h hc

theorem setDecidable_decision (s : SolverState) (v : Nat) (b : Bool) :
    (setDecidable s v b).decision = s.decision.set v b := by
  simp only [setDecidable, insertVarOrder_decision]
  split <;> first | rfl | (split <;> rfl)

theorem setDecidable_assigns (s : SolverState) (v : Nat) (b : Bool) :
    (setDecidable s v b).assigns = s.assigns := by
  simp only [setDecidable, insertVarOrder_assigns]
  split <;> first | rfl | (split <;> rfl)

theorem setDecidable_vardata (s : SolverState) (v : Nat) (b : Bool) :
    (setDecidable s v b).vardata = s.vardata := by
  simp only [setDecidable, insertVarOrder_vardata]
  split <;> first | rfl | (split <;> rfl)

theorem setDecidable_trail (s : SolverState) (v : Nat) (b : Bool) :
    (setDecidable s v b).trail = s.trail := by
  simp only [setDecidable, insertVarOrder_trail]
  split <;> first | rfl | (split <;> rfl)

theorem setDecidable_trail_lim (s : SolverState) (v : Nat) (b : Bool) :
    (setDecidable s v b).trail_lim = s.trail_lim := by
  simp only [setDecidable, insertVarOrder_trail_lim]
  split <;> first | rfl | (split <;> rfl)

theorem setDecidable_qhead (s : SolverState) (v : Nat) (b : Bool) :
    (setDecidable s v b).qhead = s.qhead := by
  simp only [setDecidable, insertVarOrder_qhead]
  split <;> first | rfl | (split <;> rfl)

theorem setDecidable_watches (s : SolverState) (v : Nat) (b : Bool) :
    (setDecidable s v b).watches = s.watches := by
  simp only [setDecidable, insertVarOrder_watches]
  split <;> first | rfl | (split <;> rfl)

theorem setDecidable_ca (s : SolverState) (v : Nat) (b : Bool) :
    (setDecidable s v b).ca = s.ca := by
  simp only [setDecidable, insertVarOrder_ca]
  split <;> first | rfl | (split <;> rfl)

theorem setDecidable_clauses (s : SolverState) (v : Nat) (b : Bool) :
    (setDecidable s v b).clauses = s.clauses := by
  simp only [setDecidable, insertVarOrder_clauses]
  split <;> first | rfl | (split <;> rfl)

theorem setDecidable_learnts (s : SolverState) (v : Nat) (b : Bool) :
    (setDecidable s v b).learnts = s.learnts := by
  simp only [setDecidable, insertVarOrder_learnts]
  split <;> first | rfl | (split <;> rfl)

theorem setDecidable_ok (s : SolverState) (v : Nat) (b : Bool) :
    (setDecidable s v b).ok = s.ok := by
  simp only [setDecidable, insertVarOrder_ok]
  split <;> first | rfl | (split <;> rfl)

theorem setDecidable_rng (s : SolverState) (v : Nat) (b : Bool) :
    (setDecidable s v b).rng = s.rng := by
  simp only [setDecidable, insertVarOrder_rng]
  split <;> first | rfl | (split <;> rfl)

theorem setDecidable_true_isDecisionVar (s : SolverState) (v : Nat)
    (hv : v < s.decision.length) :
    isDecisionVar (setDecidable s v true) v = true := by
  unfold isDecisionVar
  rw [setDecidable_decision]
  exact getD_set_self _ _ _ _ hv

theorem setDecidable_true_mem_heap (s : SolverState) (v : Nat)
    (hv : v < s.decision.length) :
    v ∈ (setDecidable s v true).order_heap := by
  simp only [setDecidable]
  have key : ∀ t : SolverState, t.decision = s.decision →
      v ∈ (insertVarOrder { t with decision := t.decision.set v true } v).order_heap := by
    intro t ht
    apply insertVarOrder_mem_heap
    unfold isDecisionVar
    simp only []
    rw [ht]
    exact getD_set_self _ _ _ _ hv
  split
  · exact key _ rfl
  · split
    · exact key _ rfl
    · exact key _ rfl

theorem setClause_assigns (s : SolverState) (cr : Nat) (c : Clause) :
    (setClause s cr c).assigns = s.assigns := rfl

theorem setClause_vardata (s : SolverState) (cr : Nat) (c : Clause) :
    (setClause s cr c).vardata = s.vardata := rfl

theorem setClause_trail (s : SolverState) (cr : Nat) (c : Clause) :
    (setClause s cr c).trail = s.trail := rfl

theorem setClause_qhead (s : SolverState) (cr : Nat) (c : Clause) :
    (setClause s cr c).qhead = s.qhead := rfl

theorem setClause_decision (s : SolverState) (cr : Nat) (c : Clause) :
    (setClause s cr c).decision = s.decision := rfl

theorem pushWatcher_assigns (s : SolverState) (l : Nat) (w : Watcher) :
    (pushWatcher s l w).assigns = s.assigns := rfl

theorem pushWatcher_trail (s : SolverState) (l : Nat) (w : Watcher) :
    (pushWatcher s l w).trail = s.trail := rfl

theorem pushWatcher_qhead (s : SolverState) (l : Nat) (w : Watcher) :
    (pushWatcher s l w).qhead = s.qhead := rfl

theorem checkDecisionVars_assigns (s : SolverState) (c : Clause) :
    (checkDecisionVars s c).assigns = s.assigns := by
  simp only [checkDecisionVars, irand, rngNext]
  split
  · rw [setDecidable_assigns]
  · split
    · rw [setDecidable_assigns]
    · split
      · rw [setDecidable_assigns]
      · rfl

theorem checkDecisionVars_vardata (s : SolverState) (c : Clause) :
    (checkDecisionVars s c).vardata = s.vardata := by
  simp only [checkDecisionVars, irand, rngNext]
  split
  · rw [setDecidable_vardata]
  · split
    · rw [setDecidable_vardata]
    · split
      · rw [setDecidable_vardata]
      · rfl

theorem checkDecisionVars_trail (s : SolverState) (c : Clause) :
    (checkDecisionVars s c).trail = s.trail := by
  simp only [checkDecisionVars, irand, rngNext]
  split
  · rw [setDecidable_trail]
  · split
    · rw [setDecidable_trail]
    · split
      · rw [setDecidable_trail]
      · rfl

theorem checkDecisionVars_trail_lim (s : SolverState) (c : Clause) :
    (checkDecisionVars s c).trail_lim = s.trail_lim := by
  simp only [checkDecisionVars, irand, rngNext]
  split
  · rw [setDecidable_trail_lim]
  · split
    · rw [setDecidable_trail_lim]
    · split
      · rw [setDecidable_trail_lim]
      · rfl

theorem checkDecisionVars_qhead (s : SolverState) (c : Clause) :
    (checkDecisionVars s c).qhead = s.qhead := by
  simp only [checkDecisionVars, irand, rngNext]
  split
  · rw [setDecidable_qhead]
  · split
    · rw [setDecidable_qhead]
    · split
      · rw [setDecidable_qhead]
      · rfl

theorem checkDecisionVars_ca (s : SolverState) (c : Clause) :
    (checkDecisionVars s c).ca = s.ca := by
  simp only [checkDecisionVars, irand, rngNext]
  split
  · rw [setDecidable_ca]
  · split
    · rw [setDecidable_ca]
    · split
      · rw [setDecidable_ca]
      · rfl

theorem checkDecisionVars_clauses (s : SolverState) (c : Clause) :
    (checkDecisionVars s c).clauses = s.clauses := by
  simp only [checkDecisionVars, irand, rngNext]
  split
  · rw [setDecidable_clauses]
  · split
    · rw [setDecidable_clauses]
    · split
      · rw [setDecidable_clauses]
      · rfl

theorem checkDecisionVars_learnts (s : SolverState) (c : Clause) :
    (checkDecisionVars s c).learnts = s.learnts := by
  simp only [checkDecisionVars, irand, rngNext]
  split
  · rw [setDecidable_learnts]
  · split
    · rw [setDecidable_learnts]
    · split
      · rw [setDecidable_learnts]
      · rfl

theorem checkDecisionVars_ok (s : SolverState) (c : Clause) :
    (checkDecisionVars s c).ok = s.ok := by
  simp only [checkDecisionVars, irand, rngNext]
  split
  · rw [setDecidable_ok]
  · split
    · rw [setDecidable_ok]
    · split
      · rw [setDecidable_ok]
      · rfl

theorem uncheckedEnqueue_trail (s : SolverState) (p : Nat) (r : Option Nat) :
    (uncheckedEnqueue s p r).trail = s.trail ++ [p] := by
  simp only [uncheckedEnqueue]
  split <;> split <;> first | rfl | rw [setDecidable_trail]

theorem uncheckedEnqueue_qhead (s : SolverState) (p : Nat) (r : Option Nat) :
    (uncheckedEnqueue s p r).qhead = s.qhead := by
  simp only [uncheckedEnqueue]
  split <;> split <;> first | rfl | rw [setDecidable_qhead]

theorem uncheckedEnqueue_vardata (s : SolverState) (p : Nat) (r : Option Nat) :
    (uncheckedEnqueue s p r).vardata =
      s.vardata.set (litVar p) ⟨r, decisionLevel s⟩ := by
  simp only [uncheckedEnqueue]
  split <;> split <;> first | rfl | rw [setDecidable_vardata]

theorem uncheckedEnqueue_reason (s : SolverState) (p : Nat) (r : Option Nat)
    (hv : litVar p < s.vardata.length) :
    reasonOf (uncheckedEnqueue s p r) (litVar p) = r := by
  unfold reasonOf
  rw [uncheckedEnqueue_vardata]
  rw [getD_set_self _ _ _ _ hv]

theorem alignedState_assigns (s : SolverState) (p cr : Nat) :
    (alignedState s p cr).assigns = s.assigns := by
  unfold alignedState; split <;> rfl

theorem alignedState_trail (s : SolverState) (p cr : Nat) :
    (alignedState s p cr).trail = s.trail := by
  unfold alignedState; split <;> rfl

theorem alignedState_qhead (s : SolverState) (p cr : Nat) :
    (alignedState s p cr).qhead = s.qhead := by
  unfold alignedState; split <;> rfl

theorem alignedState_vardata (s : SolverState) (p cr : Nat) :
    (alignedState s p cr).vardata = s.vardata := by
  unfold alignedState; split <;> rfl

theorem pw_blocker (s : SolverState) (p : Nat) (w : Watcher) (rest kept : List Watcher)
    (hb : valueLit s w.blocker = ltrue) :
    propagateWatchers s p (w :: rest) kept =
      propagateWatchers (setDecidable s (litVar w.blocker) true) p rest (kept ++ [w]) := by
  rw [propagateWatchers]
  simp only [hb, if_pos]

theorem pw_satisfied (s : SolverState) (p : Nat) (w : Watcher) (rest kept : List Watcher)
    (hb : ¬ valueLit s w.blocker = ltrue)
    (hsat : (alignedClause s p w.cref).lits.getD 0 0 ≠ w.blocker ∧
      valueLit (alignedState s p w.cref) ((alignedClause s p w.cref).lits.getD 0 0) = ltrue) :
    propagateWatchers s p (w :: rest) kept =
      propagateWatchers (checkDecisionVars (alignedState s p w.cref) (alignedClause s p w.cref))
        p rest (kept ++ [⟨w.cref, (alignedClause s p w.cref).lits.getD 0 0⟩]) := by
  rw [propagateWatchers]
  rw [if_neg hb]
  simp only []
  rw [if_pos hsat]

theorem pw_newwatch (s : SolverState) (p : Nat) (w : Watcher) (rest kept : List Watcher)
    (k : Nat)
    (hb : ¬ valueLit s w.blocker = ltrue)
    (hsat : ¬ ((alignedClause s p w.cref).lits.getD 0 0 ≠ w.blocker ∧
      valueLit (alignedState s p w.cref) ((alignedClause s p w.cref).lits.getD 0 0) = ltrue))
    (hscan : findNonFalseIdx (alignedState s p w.cref)
      ((alignedClause s p w.cref).lits.drop 2) 2 = some k) :
    propagateWatchers s p (w :: rest) kept =
      (let c := alignedClause s p w.cref
       let c2 : Clause :=
         { c with lits := (c.lits.set 1 (c.lits.getD k 0)).set k (negLit p) }
       propagateWatchers
         (checkDecisionVars
           (pushWatcher (setClause (alignedState s p w.cref) w.cref c2)
             (negLit (c2.lits.getD 1 0)) ⟨w.cref, c.lits.getD 0 0⟩) c2)
         p rest kept) := by
  rw [propagateWatchers]
  rw [if_neg hb]
  simp only []
  rw [if_neg hsat, hscan]

theorem pw_unit_conflict (s : SolverState) (p : Nat) (w : Watcher) (rest kept : List Watcher)
    (hb : ¬ valueLit s w.blocker = ltrue)
    (hsat : ¬ ((alignedClause s p w.cref).lits.getD 0 0 ≠ w.blocker ∧
      valueLit (alignedState s p w.cref) ((alignedClause s p w.cref).lits.getD 0 0) = ltrue))
    (hscan : findNonFalseIdx (alignedState s p w.cref)
      ((alignedClause s p w.cref).lits.drop 2) 2 = none)
    (hf : valueLit (alignedState s p w.cref) ((alignedClause s p w.cref).lits.getD 0 0) = lfalse) :
    propagateWatchers s p (w :: rest) kept =
      ({ alignedState s p w.cref with qhead := (alignedState s p w.cref).trail.length },
        kept ++ [⟨w.cref, (alignedClause s p w.cref).lits.getD 0 0⟩] ++ rest, some w.cref) := by
  rw [propagateWatchers]
  rw [if_neg hb]
  simp only []
  rw [if_neg hsat, hscan]
  simp only []
  rw [if_pos hf]

theorem pw_unit_enqueue (s : SolverState) (p : Nat) (w : Watcher) (rest kept : List Watcher)
    (hb : ¬ valueLit s w.blocker = ltrue)
    (hsat : ¬ ((alignedClause s p w.cref).lits.getD 0 0 ≠ w.blocker ∧
      valueLit (alignedState s p w.cref) ((alignedClause s p w.cref).lits.getD 0 0) = ltrue))
    (hscan : findNonFalseIdx (alignedState s p w.cref)
      ((alignedClause s p w.cref).lits.drop 2) 2 = none)
    (hf : ¬ valueLit (alignedState s p w.cref) ((alignedClause s p w.cref).lits.getD 0 0) = lfalse) :
    propagateWatchers s p (w :: rest) kept =
      propagateWatchers
        (checkDecisionVars
          (uncheckedEnqueue (alignedState s p w.cref)
            ((alignedClause s p w.cref).lits.getD 0 0) (some w.cref))
          (alignedClause s p w.cref))
        p rest (kept ++ [⟨w.cref, (alignedClause s p w.cref).lits.getD 0 0⟩]) := by
  rw [propagateWatchers]
  rw [if_neg hb]
  simp only []
  rw [if_neg hsat, hscan]
  simp only []
  rw [if_neg hf]


theorem cleanAllWatches_qhead (s : SolverState) : (cleanAllWatches s).qhead = s.qhead := rfl

theorem cleanAllWatches_trail (s : SolverState) : (cleanAllWatches s).trail = s.trail := rfl

theorem propagateWatchers_qhead_le (p : Nat) :
    ∀ (ws : List Watcher) (s : SolverState) (kept : List Watcher),
      s.qhead ≤ s.trail.length →
      (propagateWatchers s p ws kept).1.qhead ≤
        (propagateWatchers s p ws kept).1.trail.length := by
  intro ws
  induction ws with
  | nil => intro s kept h; simpa [propagateWatchers] using h
  | cons w rest ih =>
    intro s kept h
    by_cases hb : valueLit s w.blocker = ltrue
    · rw [pw_blocker s p w rest kept hb]
      exact ih _ _ (by rw [setDecidable_qhead, setDecidable_trail]; exact h)
    · have hq1 : (alignedState s p w.cref).qhead = s.qhead := alignedState_qhead s p w.cref
      have ht1 : (alignedState s p w.cref).trail = s.trail := alignedState_trail s p w.cref
      by_cases hsat : (alignedClause s p w.cref).lits.getD 0 0 ≠ w.blocker ∧
          valueLit (alignedState s p w.cref) ((alignedClause s p w.cref).lits.getD 0 0) = ltrue
      · rw [pw_satisfied s p w rest kept hb hsat]
        refine ih _ _ ?_
        rw [checkDecisionVars_qhead, checkDecisionVars_trail, hq1, ht1]
        exact h
      · cases hscan : findNonFalseIdx (alignedState s p w.cref)
            ((alignedClause s p w.cref).lits.drop 2) 2 with
        | some k =>
          rw [pw_newwatch s p w rest kept k hb hsat hscan]
          refine ih _ _ ?_
          rw [checkDecisionVars_qhead, checkDecisionVars_trail]
          simp only [pushWatcher_qhead, pushWatcher_trail, setClause_qhead, setClause_trail]
          rw [hq1, ht1]
          exact h
        | none =>
          by_cases hf : valueLit (alignedState s p w.cref)
              ((alignedClause s p w.cref).lits.getD 0 0) = lfalse
          · rw [pw_unit_conflict s p w rest kept hb hsat hscan hf]
          · rw [pw_unit_enqueue s p w rest kept hb hsat hscan hf]
            refine ih _ _ ?_
            rw [checkDecisionVars_qhead, checkDecisionVars_trail,
              uncheckedEnqueue_qhead, uncheckedEnqueue_trail, hq1, ht1]
            simp
            omega

theorem propagateLoop_qhead (f : Nat) :
    ∀ (s : SolverState) (np : Nat) (confl : Option Nat) (r : SolverState × Option Nat × Nat),
      s.qhead ≤ s.trail.length → propagateLoop f s np confl = some r →
      r.1.qhead = r.1.trail.length := by
  induction f with
  | zero => intro s np confl r h hrun; simp [propagateLoop] at hrun
  | succ f ih =>
    intro s np confl r h hrun
    rw [propagateLoop] at hrun
    by_cases hq : s.qhead < s.trail.length
    · rw [if_pos hq] at hrun
      simp only [] at hrun
      refine ih _ _ _ _ ?_ hrun
      split
      · simp
      · exact propagateWatchers_qhead_le _ _ _ [] (Nat.succ_le_of_lt hq)
    · rw [if_neg hq] at hrun
      simp only [Option.some.injEq] at hrun
      subst hrun
      exact Nat.le_antisymm h (Nat.not_lt.mp hq)

theorem notifypropagate_qhead (f : Nat) (s : SolverState) (r : SolverState × Option Nat)
    (h : s.qhead ≤ s.trail.length) (hrun : notifypropagate f s = some r) :
    r.1.qhead = r.1.trail.length := by
  unfold notifypropagate at hrun
  simp only [] at hrun
  cases hloop : propagateLoop f (cleanAllWatches s) 0 none with
  | none => rw [hloop] at hrun; simp at hrun
  | some t =>
    rw [hloop] at hrun
    simp only [Option.some.injEq] at hrun
    subst hrun
    exact propagateLoop_qhead f (cleanAllWatches s) 0 none t h hloop


/-- Claim C3 -/
theorem propagate_unit_branch (s : SolverState) (p : Nat) (w : Watcher)
    (rest kept : List Watcher) (f : Nat) (t : SolverState)
    (tr : SolverState × Option Nat)
    (hb : ¬ valueLit s w.blocker = ltrue)
    (hsat : ¬ ((alignedClause s p w.cref).lits.getD 0 0 ≠ w.blocker ∧
      valueLit (alignedState s p w.cref) ((alignedClause s p w.cref).lits.getD 0 0) = ltrue))
    (hscan : findNonFalseIdx (alignedState s p w.cref)
      ((alignedClause s p w.cref).lits.drop 2) 2 = none)
    (hq : t.qhead ≤ t.trail.length)
    (hrun : notifypropagate f t = some tr) :
    (valueLit (alignedState s p w.cref) ((alignedClause s p w.cref).lits.getD 0 0) = lfalse →
      propagateWatchers s p (w :: rest) kept =
        ({ alignedState s p w.cref with qhead := (alignedState s p w.cref).trail.length },
          kept ++ [⟨w.cref, (alignedClause s p w.cref).lits.getD 0 0⟩] ++ rest, some w.cref)) ∧
    (¬ valueLit (alignedState s p w.cref) ((alignedClause s p w.cref).lits.getD 0 0) = lfalse →
      propagateWatchers s p (w :: rest) kept =
        propagateWatchers
          (checkDecisionVars
            (uncheckedEnqueue (alignedState s p w.cref)
              ((alignedClause s p w.cref).lits.getD 0 0) (some w.cref))
            (alignedClause s p w.cref)) p rest
          (kept ++ [⟨w.cref, (alignedClause s p w.cref).lits.getD 0 0⟩]) ∧
      (uncheckedEnqueue (alignedState s p w.cref)
          ((alignedClause s p w.cref).lits.getD 0 0) (some w.cref)).trail =
        (alignedState s p w.cref).trail ++ [(alignedClause s p w.cref).lits.getD 0 0] ∧
      (litVar ((alignedClause s p w.cref).lits.getD 0 0) < s.vardata.length →
        reasonOf
          (uncheckedEnqueue (alignedState s p w.cref)
            ((alignedClause s p w.cref).lits.getD 0 0) (some w.cref))
          (litVar ((alignedClause s p w.cref).lits.getD 0 0)) = some w.cref)) ∧
    tr.1.qhead = tr.1.trail.length := by
  refine ⟨?_, ?_, notifypropagate_qhead f t tr hq hrun⟩
  · intro hf
    exact pw_unit_conflict s p w rest kept hb hsat hscan hf
  · intro hf
    refine ⟨pw_unit_enqueue s p w rest kept hb hsat hscan hf,
      uncheckedEnqueue_trail _ _ _, ?_⟩
    intro hv
    apply uncheckedEnqueue_reason
    rw [alignedState_vardata]
    exact hv

def c3st : SolverState :=
  { initState [] with
    assigns := [ltrue, lundef]
    decision := [true, true]
    vardata := [⟨none, 0⟩, ⟨none, 0⟩]
    ca := [⟨[1, 2], false, 0, 0⟩]
    watches := [[], [⟨0, 1⟩], [], []] }

/-- Witness for C3. -/
theorem propagate_unit_branch_witness :
    (valueLit (alignedState c3st 0 0) ((alignedClause c3st 0 0).lits.getD 0 0) = lfalse →
      propagateWatchers c3st 0 [⟨0, 1⟩] [] =
        ({ alignedState c3st 0 0 with qhead := (alignedState c3st 0 0).trail.length },
          [] ++ [⟨0, (alignedClause c3st 0 0).lits.getD 0 0⟩] ++ [], some 0)) ∧
    (¬ valueLit (alignedState c3st 0 0) ((alignedClause c3st 0 0).lits.getD 0 0) = lfalse →
      propagateWatchers c3st 0 [⟨0, 1⟩] [] =
        propagateWatchers
          (checkDecisionVars
            (uncheckedEnqueue (alignedState c3st 0 0)
              ((alignedClause c3st 0 0).lits.getD 0 0) (some 0))
            (alignedClause c3st 0 0)) 0 []
          ([] ++ [⟨0, (alignedClause c3st 0 0).lits.getD 0 0⟩]) ∧
      (uncheckedEnqueue (alignedState c3st 0 0)
          ((alignedClause c3st 0 0).lits.getD 0 0) (some 0)).trail =
        (alignedState c3st 0 0).trail ++ [(alignedClause c3st 0 0).lits.getD 0 0] ∧
      (litVar ((alignedClause c3st 0 0).lits.getD 0 0) < c3st.vardata.length →
        reasonOf
          (uncheckedEnqueue (alignedState c3st 0 0)
            ((alignedClause c3st 0 0).lits.getD 0 0) (some 0))
          (litVar ((alignedClause c3st 0 0).lits.getD 0 0)) = some 0)) ∧
    (initState [], (none : Option Nat)).1.qhead =
      (initState [], (none : Option Nat)).1.trail.length :=
  propagate_unit_branch c3st 0 ⟨0, 1⟩ [] [] 1 (initState []) (initState [], none)
    (by decide) (by decide) (by decide) (by decide) (by rfl)

/-- Claim C9: during unit propagation, a watcher whose blocker literal is
true is not merely kept and skipped: the walk additionally makes the
blocker's variable decidable (a side effect on the decision array and the
order heap) before moving to the next watcher. -/
theorem propagate_blocker_promotes_decidable (s : SolverState) (p : Nat)
    (w : Watcher) (rest kept : List Watcher)
    (hb : valueLit s w.blocker = ltrue)
    (hv : litVar w.blocker < s.decision.length) :
    propagateWatchers s p (w :: rest) kept =
      propagateWatchers (setDecidable s (litVar w.blocker) true) p rest (kept ++ [w]) ∧
    isDecisionVar (setDecidable s (litVar w.blocker) true) (litVar w.blocker) = true ∧
    litVar w.blocker ∈ (setDecidable s (litVar w.blocker) true).order_heap := by
  refine ⟨?_, setDecidable_true_isDecisionVar s _ hv, setDecidable_true_mem_heap s _ hv⟩
  rw [propagateWatchers]
  simp only [hb, if_pos]

/-- Concrete state for the C9 witness: variable 1 true, nobody decidable. -/
def c9st : SolverState :=
  { initState [] with
    assigns := [lundef, ltrue]
    decision := [false, false] }

/-- Witness for C9 at a concrete state. -/
theorem propagate_blocker_promotes_decidable_witness :
    propagateWatchers c9st 1 [⟨0, 2⟩] [] =
      propagateWatchers (setDecidable c9st 1 true) 1 [] [⟨0, 2⟩] ∧
    isDecisionVar (setDecidable c9st 1 true) 1 = true ∧
    1 ∈ (setDecidable c9st 1 true).order_heap :=
  propagate_blocker_promotes_decidable c9st 1 ⟨0, 2⟩ [] [] (by decide) (by decide)

theorem permuteRandomly_nil (s : SolverState) : permuteRandomly s [] = ([], s) := rfl

theorem permuteRandomly_single (s : SolverState) (q : Nat) :
    permuteRandomly s [q] = ([q], { s with rng := s.rng.drop 1 }) := by
  cases h : s.rng with
  | nil => simp [permuteRandomly, List.insertionSort, h]
  | cons a rest => simp [permuteRandomly, List.insertionSort, h]

/-- Claim C2 -/
theorem okay_latches_false
    (f : Nat) (search : SolverState → Int → Option (LBool × SolverState)) (nosearch : Bool)
    (sA : SolverState) (psA : List Nat) (hA : sA.ok = false)
    (sC : SolverState) (psC : List Nat) (hCok : sC.ok = true)
    (hClvl : decisionLevel sC = 0)
    (hCsimp : rootSimplify sC (sortLits psC) none = some [])
    (sD : SolverState) (psD : List Nat) (q : Nat) (t : SolverState) (cr : Nat)
    (hDok : sD.ok = true) (hDlvl : decisionLevel sD = 0)
    (hDsimp : rootSimplify sD (sortLits psD) none = some [q])
    (hDprop : propagate f (uncheckedEnqueue { sD with rng := sD.rng.tail } q none) =
      some (t, some cr)) :
    addClause_ (f + 1) sA psA = some (false, sA) ∧
    solveWith search f sA nosearch =
      some (lfalse, { sA with model := [], conflictVec := [] }) ∧
    (addClause_ (f + 1) sC psC = some (false, { sC with ok := false }) ∧
      ({ sC with ok := false } : SolverState).ok = false) ∧
    (addClause_ (f + 1) sD psD = some (false, { t with ok := false }) ∧
      ({ t with ok := false } : SolverState).ok = false) := by
  refine ⟨?_, ?_, ⟨?_, rfl⟩, ⟨?_, rfl⟩⟩
  · rw [addClause_]
    simp [hA]
  · simp [solveWith, hA]
  · rw [addClause_]
    rw [if_neg (by simp [hCok])]
    rw [if_neg (by simp [hClvl])]
    simp only [hClvl, if_pos, hCsimp, permuteRandomly_nil]
    simp
  · rw [addClause_]
    rw [if_neg (by simp [hDok])]
    rw [if_neg (by simp [hDlvl])]
    simp only [hDlvl, if_pos, hDsimp, permuteRandomly_single]
    simp [hDprop]


/-- Concrete contradictory state for the C2 witness. -/
def c2sA : SolverState := { initState [] with ok := false }

/-- Concrete state whose clause [x0] simplifies to the empty clause. -/
def c2sC : SolverState :=
  { initState [] with
    assigns := [lfalse]
    vardata := [⟨none, 0⟩]
    decision := [true] }

/-- Concrete state where the unit clause [x0] propagates to a conflict. -/
def c2sD : SolverState :=
  { initState [] with
    assigns := [lundef, ltrue]
    vardata := [⟨none, 0⟩, ⟨none, 0⟩]
    decision := [true, true]
    trail := [2]
    qhead := 1
    ca := [⟨[1, 3], false, 0, 0⟩]
    watches := [[⟨0, 3⟩], [], [⟨0, 1⟩], []]
    watchesDirty := [false, false, false, false] }

/-- Arbitrary search routine for the C2 witness. -/
def c2search : SolverState → Int → Option (LBool × SolverState) := fun s _ => some (lundef, s)

/-- Result state of the conflicting unit propagation of the C2 witness. -/
def c2t : SolverState :=
  ((propagate 2 (uncheckedEnqueue { c2sD with rng := c2sD.rng.tail } 0 none)).getD
    (initState [], none)).1

/-- Witness for C2 at concrete states. -/
theorem okay_latches_false_witness :
    addClause_ 3 c2sA [] = some (false, c2sA) ∧
    solveWith c2search 2 c2sA false =
      some (lfalse, { c2sA with model := [], conflictVec := [] }) ∧
    (addClause_ 3 c2sC [0] = some (false, { c2sC with ok := false }) ∧
      ({ c2sC with ok := false } : SolverState).ok = false) ∧
    (addClause_ 3 c2sD [0] = some (false, { c2t with ok := false }) ∧
      ({ c2t with ok := false } : SolverState).ok = false) :=
  okay_latches_false 2 c2search false c2sA [] rfl c2sC [0] rfl rfl (by decide)
    c2sD [0] 0 c2t 0 rfl rfl (by decide) (by rfl)

end Minisat
